import Mathlib

/-!
Verification development for the gkeep2dynalist repository.

The Go sources are shallowly embedded: Go strings are modelled as `List Char`
(every constant involved is ASCII, so the byte/rune distinction is irrelevant),
fallible operations return explicit outcome values, and the process-wide
mutable statistics are threaded as explicit state.  The network is modelled as
an oracle `Nat → AttemptOutcome` giving the outcome of each HTTP attempt the
client would perform, and the randomness of the pacing pause is a parameter
`pauseR` standing for the value of `rand.Int63n(maxPause - minPause)`.
-/

namespace G2D

/-- Maximum number of retries (`maxRetries = 5` in dynalist.go). -/
def maxRetries : Nat := 5

/-- Minimum delay between retries, in nanoseconds (`minDelay = 2 * time.Second`). -/
def minDelay : Nat := 2000000000

/-- Maximum delay between retries, in nanoseconds (`maxDelay = 60 * time.Second`). -/
def maxDelay : Nat := 60000000000

/-- Minimum random pause between API calls, in nanoseconds (`minPause = 1 * time.Second`). -/
def minPause : Nat := 1000000000

/-- Maximum random pause between API calls, in nanoseconds (`maxPause = 3 * time.Second`). -/
def maxPause : Nat := 3000000000

/-- Retry statistics (`RetryStats` in dynalist.go). -/
structure RetryStats where
  TotalCalls : Nat
  SuccessfulCalls : Nat
  FailedCalls : Nat
  Retries : Nat
  LastError : List Char
  LastStatus : List Char
deriving DecidableEq, Repr

/-- Outcome of one HTTP attempt inside `AddToDynalist`, as observed by the
code: `client.Do` fails, the response body fails to decode, or a decoded
`DynalistResponse` with its `_code` and `_msg` fields is obtained. -/
inductive AttemptOutcome where
  | sendErr (msg : List Char)
  | decodeErr (msg : List Char)
  | response (code msg : List Char)
deriving DecidableEq, Repr

/-- One `time.Sleep` performed by `AddToDynalist`: either the random pacing
pause (with its duration in nanoseconds) or a backoff sleep of
`calculateBackoff retry`. -/
inductive SleepEvent where
  | pacing (d : Nat)
  | backoff (retry : Nat)
deriving DecidableEq, Repr

/-- True exactly on pacing sleeps. -/
def isPacing : SleepEvent → Bool
  | .pacing _ => true
  | .backoff _ => false

/-- True exactly on backoff sleeps. -/
def isBackoff : SleepEvent → Bool
  | .pacing _ => false
  | .backoff _ => true

/-- Result of one `AddToDynalist` call: whether it returned `nil`, the
returned error message (meaningful when `ok = false`), the updated statistics,
the number of HTTP requests sent, and the sleeps performed, in order. -/
structure RunResult where
  ok : Bool
  err : List Char
  stats : RetryStats
  requests : Nat
  sleeps : List SleepEvent
deriving Repr

/-- The common exit path of the retry loop (`Stats.FailedCalls++;
Stats.LastStatus = "Failed"; return lastErr` in dynalist.go), recording that
`n` requests were sent by the enclosing step. -/
def finishFailed (s : RetryStats) (lastErr : List Char) (n : Nat) : RunResult :=
  { ok := false
    err := lastErr
    stats := { s with FailedCalls := s.FailedCalls + 1, LastStatus := "Failed".data }
    requests := n
    sleeps := [] }

/-- The retry loop of `AddToDynalist` (dynalist.go lines 79-162).  `attempt`
indexes the oracle, `retryCount` and `lastErr` are the loop variables, `s` the
statistics.  The final argument is the loop variant `maxRetries + 1 -
retryCount`: the loop body increments `retryCount` on every path that reaches
`continue`, so this quantity strictly decreases; recursing on it structurally
keeps the definition executable by the kernel.  The `0` case is unreachable
when the variant is in sync with `retryCount` (the `retryCount > maxRetries`
check fires first). -/
def addLoopAux (env : Nat → AttemptOutcome) :
    Nat → Nat → List Char → RetryStats → Nat → RunResult
  | _, _, lastErr, s, 0 => finishFailed s lastErr 0
  | attempt, retryCount, lastErr, s, remaining + 1 =>
    match env attempt with
    | .sendErr m =>
      let lastErr := "failed to send request: ".data ++ m
      let s := { s with LastError := lastErr, Retries := s.Retries + 1 }
      let retryCount := retryCount + 1
      if retryCount > maxRetries then
        finishFailed s lastErr 1
      else
        let r := addLoopAux env (attempt + 1) retryCount lastErr s remaining
        { r with requests := r.requests + 1
                 sleeps := SleepEvent.backoff retryCount :: r.sleeps }
    | .decodeErr m =>
      let lastErr := "failed to decode response: ".data ++ m
      let s := { s with LastError := lastErr, Retries := s.Retries + 1 }
      let retryCount := retryCount + 1
      if retryCount > maxRetries then
        finishFailed s lastErr 1
      else
        let r := addLoopAux env (attempt + 1) retryCount lastErr s remaining
        { r with requests := r.requests + 1
                 sleeps := SleepEvent.backoff retryCount :: r.sleeps }
    | .response code msg =>
      if code = "Ok".data then
        { ok := true
          err := lastErr
          stats := { s with SuccessfulCalls := s.SuccessfulCalls + 1
                            LastStatus := "Success".data }
          requests := 1
          sleeps := [] }
      else
        let lastErr :=
          if msg = [] then "dynalist API error: ".data ++ code
          else "dynalist API error: ".data ++ msg
        let s := { s with LastError := lastErr }
        if code ≠ "TooManyRequests".data ∧ retryCount ≥ 2 then
          finishFailed s lastErr 1
        else
          let retryCount := retryCount + 1
          let s := { s with Retries := s.Retries + 1 }
          if retryCount > maxRetries then
            finishFailed s lastErr 1
          else
            let r := addLoopAux env (attempt + 1) retryCount lastErr s remaining
            { r with requests := r.requests + 1
                     sleeps := SleepEvent.backoff retryCount :: r.sleeps }

/-- The retry loop entered with loop variables `retryCount` and `lastErr`. -/
def addLoop (env : Nat → AttemptOutcome) (attempt retryCount : Nat)
    (lastErr : List Char) (s : RetryStats) : RunResult :=
  addLoopAux env attempt retryCount lastErr s (maxRetries + 1 - retryCount)

/-- `AddToDynalist` (dynalist.go lines 55-168).  `token`, `content` and `note`
are the marshalled payload (they do not influence control flow); `pauseR`
stands for the drawn value of `rand.Int63n(int64(maxPause-minPause))`, so the
initial pacing sleep lasts `minPause + pauseR` nanoseconds; `env` yields each
attempt's outcome; `stats` is the value of the global `Stats` on entry.
`json.Marshal` of a struct of strings and `http.NewRequest` with the constant
method and URL cannot fail in Go, so those two error returns are not
modelled. -/
def AddToDynalist (token content note : List Char) (pauseR : Nat)
    (env : Nat → AttemptOutcome) (stats : RetryStats) : RunResult :=
  let randomPause := minPause + pauseR
  let _payload := (token, content, note)
  let stats := { stats with TotalCalls := stats.TotalCalls + 1 }
  let r := addLoop env 0 0 [] stats
  { r with sleeps := SleepEvent.pacing randomPause :: r.sleeps }

/-- Exponential backoff with jitter (`calculateBackoff` in dynalist.go).  The
Go `float64` arithmetic is modelled over `ℚ`; `jitter` stands for the drawn
value `0.5 + rand.Float64()`, which lies in `[0.5, 1.5)`. -/
def calculateBackoff (retry : Nat) (jitter : ℚ) : ℚ :=
  let backoff : ℚ := (minDelay : ℚ) * 2 ^ retry
  let backoff2 : ℚ := backoff * jitter
  if backoff2 > (maxDelay : ℚ) then (maxDelay : ℚ) else backoff2

/-- An attachment reference of a Keep note (`Attachment` in keepnote.go). -/
structure Attachment where
  FilePath : List Char
  MimeType : List Char
deriving DecidableEq, Repr

/-- A label of a Keep note (`Label` in keepnote.go). -/
structure Label where
  Name : List Char
deriving DecidableEq, Repr

/-- A parsed Keep note (`KeepNote` in keepnote.go; the two timestamp fields
and the HTML body are never read by the code under verification and are
omitted). -/
structure KeepNote where
  Title : List Char
  TextContent : List Char
  Attachments : List Attachment
  Labels : List Label
  IsArchived : Bool
deriving DecidableEq, Repr

/-- `strings.ReplaceAll(s, " ", "_")`: with a single-byte ASCII pattern and
replacement this is exactly a character-wise map. -/
def replaceAllSpace (s : List Char) : List Char :=
  s.map fun c => if c = ' ' then '_' else c

/-- `processLabels` (keepnote.go lines 52-59): render each label as a hashtag
and join with single spaces (`strings.Join(hashtags, " ")`). -/
def processLabels (labels : List Label) : List Char :=
  List.intercalate [' '] (labels.map fun label => '#' :: replaceAllSpace label.Name)

/-- `filepath.Base` (Unix): strip trailing slashes, then keep everything after
the last slash; empty path gives `"."`, all-slash path gives `"/"`. -/
def filepathBase (p : List Char) : List Char :=
  if p = [] then ['.']
  else
    let p1 := (p.reverse.dropWhile (fun c => c = '/')).reverse
    if p1 = [] then ['/']
    else (p1.reverse.takeWhile (fun c => c ≠ '/')).reverse

/-- `filepath.Ext`: the suffix of the final path element starting at its last
dot, empty if the final element has no dot. -/
def filepathExt (p : List Char) : List Char :=
  let revTail := p.reverse.takeWhile (fun c => c ≠ '/')
  if '.' ∈ revTail then ((revTail.takeWhile (fun c => c ≠ '.')) ++ ['.']).reverse
  else []

/-- `strings.TrimSuffix(s, suffix)`. -/
def trimSuffixL (s suffix : List Char) : List Char :=
  if suffix.isSuffixOf s then s.take (s.length - suffix.length) else s

/-- The head of `strings.Split(s, sep)` for a non-empty separator: the part of
`s` before the first occurrence of `sep` (all of `s` when `sep` does not
occur). -/
def splitBefore (sep : List Char) : List Char → List Char
  | [] => []
  | c :: rest => if sep.isPrefixOf (c :: rest) then [] else c :: splitBefore sep rest

/-- `strings.Trim(s, cutset)`: drop leading and trailing characters belonging
to `cutset`. -/
def trimCutset (cutset s : List Char) : List Char :=
  ((s.dropWhile (cutset.contains ·)).reverse.dropWhile (cutset.contains ·)).reverse

/-- The `timestampPatterns` literals of keepnote.go.  They are regular
expression texts, but the code hands them to `strings.Split`, which treats its
separator as a literal string. -/
def timestampPatterns : List (List Char) :=
  ["\\d\x7b4\x7d-\\d\x7b2\x7d-\\d\x7b2\x7dT\\d\x7b2\x7d_\\d\x7b2\x7d_\\d\x7b2\x7d".data,
   "\\d\x7b4\x7d-\\d\x7b2\x7d-\\d\x7b2\x7d".data,
   "\\d\x7b2\x7d_\\d\x7b2\x7d_\\d\x7b2\x7d".data]

/-- `shortenFilename` (keepnote.go lines 71-97), byte-for-byte: base name
minus extension, then `strings.Split(base, pattern)[0]` for each pattern in
`timestampPatterns`, then `strings.Trim(base, "._- ")`, then truncation to 15
characters with `"..."` appended. -/
def shortenFilename (filename : List Char) : List Char :=
  let name := filepathBase filename
  let ext := filepathExt filename
  let base := trimSuffixL name ext
  let base := timestampPatterns.foldl (fun b pattern => splitBefore pattern b) base
  let base := trimCutset "._- ".data base
  if base.length > 15 then base.take 15 ++ "...".data else base

/-- The payload handed to `AddToDynalist`: the target `content` field (the
title) and the target `note` field (the body). -/
structure DeliveryPayload where
  content : List Char
  note : List Char
deriving DecidableEq, Repr

/-- Result of `processMessage`: the delivered payload together with the number
of attachments for which resolution (`findAttachmentFile`) was attempted. -/
structure ProcessResult where
  payload : DeliveryPayload
  attempts : Nat
deriving DecidableEq, Repr

/-- The markdown link `fmt.Sprintf("[%s](%s)", filePath, r2URL)`. -/
def mkLink (filePath url : List Char) : List Char :=
  '[' :: filePath ++ "](".data ++ url ++ [')']

/-- The attachment links collected by the loop in `processMessage` (main.go
lines 106-122).  `r2` models the optional R2 client; when present it maps an
attachment to `some url` when both `findAttachmentFile` and `UploadLocalFile`
succeed, and to `none` when either fails (the code logs and skips the
attachment in both cases). -/
def attachmentLinksOf (r2 : Option (Attachment → Option (List Char)))
    (atts : List Attachment) : List (List Char) :=
  match r2 with
  | none => []
  | some upload => atts.filterMap fun a => (upload a).map (mkLink a.FilePath)

/-- How many attachments `processMessage` attempts to resolve: all of them
when an R2 client is configured, none otherwise (the guard
`r2Client != nil && len(note.Attachments) > 0` short-circuits). -/
def resolutionAttempts (r2 : Option (Attachment → Option (List Char)))
    (atts : List Attachment) : Nat :=
  match r2 with
  | none => 0
  | some _ => atts.length

/-- `processMessage` (main.go lines 103-151) up to the `AddToDynalist` call:
assembles the note content and title exactly as the Go code does and returns
the payload passed to the Delivery Client (`content := title`,
`note := noteContent`). -/
def processMessage (r2 : Option (Attachment → Option (List Char)))
    (note : KeepNote) (filePath : List Char) : ProcessResult :=
  let attachmentLinks := attachmentLinksOf r2 note.Attachments
  let hashtags := processLabels note.Labels
  let noteContent := note.TextContent
  let noteContent :=
    if attachmentLinks.length > 0 then
      noteContent ++ "\n\nAttachments:\n".data ++ List.intercalate ['\n'] attachmentLinks
    else noteContent
  let noteContent :=
    if hashtags ≠ [] then noteContent ++ "\n\n".data ++ hashtags else noteContent
  let title := note.Title
  let title := if title = [] then shortenFilename filePath else title
  let title := "gkeep: ".data ++ title
  { payload := { content := title, note := noteContent }
    attempts := resolutionAttempts r2 note.Attachments }

/-- The per-file step of `processKeepFolder` (main.go lines 79-97) after the
JSON-extension filter: a file that fails to parse is skipped, an archived note
is skipped, and otherwise the note is processed and delivered. -/
def processKeepFile (r2 : Option (Attachment → Option (List Char)))
    (parsed : Option KeepNote) (filePath : List Char) : Option ProcessResult :=
  match parsed with
  | none => none
  | some note => if note.IsArchived then none else some (processMessage r2 note filePath)

/-- Classification of one attempt outcome. -/
inductive Classification where
  | retry
  | terminal
  | success
deriving DecidableEq, Repr

/-- The specification's classification of one attempt outcome (spec §4.4):
transport failures (connection or decode errors) are always retryable, the
rate-limited status code is always retryable, any other non-success
endpoint-reported error is retryable only while fewer than two retries have
occurred, and the success code ends the operation successfully.  This
definition follows the spec's words; `claim_C2` proves that the code's retry
loop conforms to it. -/
def classifySpec (o : AttemptOutcome) (retryCount : Nat) : Classification :=
  match o with
  | .sendErr _ => .retry
  | .decodeErr _ => .retry
  | .response code _ =>
    if code = "Ok".data then .success
    else if code = "TooManyRequests".data then .retry
    else if retryCount < 2 then .retry
    else .terminal

/-- Each run of the retry loop performs at most `k` HTTP requests when the
loop variant is `k`. -/
lemma addLoopAux_requests_le (env : Nat → AttemptOutcome) :
    ∀ (k attempt rc : Nat) (lastErr : List Char) (s : RetryStats),
      (addLoopAux env attempt rc lastErr s k).requests ≤ k := by
  intro k
  induction k with
  | zero =>
    intro attempt rc lastErr s
    simp [addLoopAux, finishFailed]
  | succ k ih =>
    intro attempt rc lastErr s
    cases h : env attempt with
    | sendErr m =>
      simp only [addLoopAux, h]
      split
      · simp [finishFailed]
      · simpa using Nat.succ_le_succ (ih _ _ _ _)
    | decodeErr m =>
      simp only [addLoopAux, h]
      split
      · simp [finishFailed]
      · simpa using Nat.succ_le_succ (ih _ _ _ _)
    | response code msg =>
      simp only [addLoopAux, h]
      split
      · simp
      · split
        · simp [finishFailed]
        · split
          · simp [finishFailed]
          · simpa using Nat.succ_le_succ (ih _ _ _ _)

/-- Each entered iteration of the retry loop performs at least one HTTP
request. -/
lemma addLoopAux_requests_pos (env : Nat → AttemptOutcome) (k attempt rc : Nat)
    (lastErr : List Char) (s : RetryStats) :
    1 ≤ (addLoopAux env attempt rc lastErr s (k + 1)).requests := by
  cases h : env attempt with
  | sendErr m =>
    simp only [addLoopAux, h]
    split
    · simp [finishFailed]
    · simp
  | decodeErr m =>
    simp only [addLoopAux, h]
    split
    · simp [finishFailed]
    · simp
  | response code msg =>
    simp only [addLoopAux, h]
    split
    · simp
    · split
      · simp [finishFailed]
      · split
        · simp [finishFailed]
        · simp

/-- Statistics bookkeeping of the retry loop.  On a successful return the
loop adds one successful call, leaves the failure counter alone, sets the
status to `"Success"`, and has counted one retry per request beyond the
first; on a failing return it adds one failed call, sets the status to
`"Failed"`, and leaves `LastError` equal to the returned error.  The
disjunctive hypothesis only rules out the unreachable variant-exhausted base
case with an out-of-sync `LastError`. -/
lemma addLoopAux_stats (env : Nat → AttemptOutcome) :
    ∀ (k attempt rc : Nat) (lastErr : List Char) (s : RetryStats),
      s.LastError = lastErr ∨ 1 ≤ k →
      ((addLoopAux env attempt rc lastErr s k).ok = true →
          (addLoopAux env attempt rc lastErr s k).stats.SuccessfulCalls = s.SuccessfulCalls + 1
        ∧ (addLoopAux env attempt rc lastErr s k).stats.FailedCalls = s.FailedCalls
        ∧ (addLoopAux env attempt rc lastErr s k).stats.LastStatus = "Success".data
        ∧ (addLoopAux env attempt rc lastErr s k).stats.TotalCalls = s.TotalCalls
        ∧ (addLoopAux env attempt rc lastErr s k).stats.Retries + 1
            = s.Retries + (addLoopAux env attempt rc lastErr s k).requests)
      ∧ ((addLoopAux env attempt rc lastErr s k).ok = false →
          (addLoopAux env attempt rc lastErr s k).stats.FailedCalls = s.FailedCalls + 1
        ∧ (addLoopAux env attempt rc lastErr s k).stats.SuccessfulCalls = s.SuccessfulCalls
        ∧ (addLoopAux env attempt rc lastErr s k).stats.LastStatus = "Failed".data
        ∧ (addLoopAux env attempt rc lastErr s k).stats.TotalCalls = s.TotalCalls
        ∧ (addLoopAux env attempt rc lastErr s k).stats.LastError
            = (addLoopAux env attempt rc lastErr s k).err) := by
  intro k
  induction k with
  | zero =>
    intro attempt rc lastErr s hsync
    rcases hsync with hsync | hk
    · simp [addLoopAux, finishFailed, hsync]
    · omega
  | succ k ih =>
    intro attempt rc lastErr s _
    cases h : env attempt with
    | sendErr m =>
      simp only [addLoopAux, h]
      split
      · simp [finishFailed]
      · have hrec := ih (attempt + 1) (rc + 1)
          ("failed to send request: ".data ++ m)
          { s with LastError := "failed to send request: ".data ++ m
                   Retries := s.Retries + 1 } (Or.inl rfl)
        constructor
        · intro hok
          have hc := hrec.1 hok
          simp only at hc ⊢
          exact ⟨hc.1, hc.2.1, hc.2.2.1, hc.2.2.2.1, by have h5 := hc.2.2.2.2; omega⟩
        · intro hok
          have hc := hrec.2 hok
          simp only at hc ⊢
          exact ⟨hc.1, hc.2.1, hc.2.2.1, hc.2.2.2.1, hc.2.2.2.2⟩
    | decodeErr m =>
      simp only [addLoopAux, h]
      split
      · simp [finishFailed]
      · have hrec := ih (attempt + 1) (rc + 1)
          ("failed to decode response: ".data ++ m)
          { s with LastError := "failed to decode response: ".data ++ m
                   Retries := s.Retries + 1 } (Or.inl rfl)
        constructor
        · intro hok
          have hc := hrec.1 hok
          simp only at hc ⊢
          exact ⟨hc.1, hc.2.1, hc.2.2.1, hc.2.2.2.1, by have h5 := hc.2.2.2.2; omega⟩
        · intro hok
          have hc := hrec.2 hok
          simp only at hc ⊢
          exact ⟨hc.1, hc.2.1, hc.2.2.1, hc.2.2.2.1, hc.2.2.2.2⟩
    | response code msg =>
      simp only [addLoopAux, h]
      split
      · constructor
        · intro _
          refine ⟨rfl, rfl, rfl, rfl, ?_⟩
          simp
        · intro hok
          simp at hok
      · split
        · simp [finishFailed]
        · split
          · simp [finishFailed]
          · have hrec := ih (attempt + 1) (rc + 1)
              (if msg = [] then "dynalist API error: ".data ++ code
               else "dynalist API error: ".data ++ msg)
              { { s with LastError :=
                    if msg = [] then "dynalist API error: ".data ++ code
                    else "dynalist API error: ".data ++ msg } with
                  Retries := s.Retries + 1 } (Or.inl rfl)
            constructor
            · intro hok
              have hc := hrec.1 hok
              simp only at hc ⊢
              exact ⟨hc.1, hc.2.1, hc.2.2.1, hc.2.2.2.1, by have h5 := hc.2.2.2.2; omega⟩
            · intro hok
              have hc := hrec.2 hok
              simp only at hc ⊢
              exact ⟨hc.1, hc.2.1, hc.2.2.1, hc.2.2.2.1, hc.2.2.2.2⟩

/-- Sleep bookkeeping of the retry loop when entered with the variant in sync
with `retryCount`: every sleep the loop performs is a backoff sleep, and there
is exactly one fewer sleep than HTTP requests (a backoff is slept between
consecutive attempts, never after the final one). -/
lemma addLoopAux_sleeps (env : Nat → AttemptOutcome) :
    ∀ (k attempt rc : Nat) (lastErr : List Char) (s : RetryStats),
      k = maxRetries + 1 - rc → rc ≤ maxRetries →
      (addLoopAux env attempt rc lastErr s k).sleeps.length + 1
          = (addLoopAux env attempt rc lastErr s k).requests
      ∧ ∀ e ∈ (addLoopAux env attempt rc lastErr s k).sleeps, isBackoff e = true := by
  intro k
  induction k with
  | zero =>
    intro attempt rc lastErr s hk hrc
    simp only [maxRetries] at hk hrc
    omega
  | succ k ih =>
    intro attempt rc lastErr s hk hrc
    cases h : env attempt with
    | sendErr m =>
      simp only [addLoopAux, h]
      split
      · simp [finishFailed]
      · rename_i hlt
        have hrec := ih (attempt + 1) (rc + 1)
          ("failed to send request: ".data ++ m)
          { s with LastError := "failed to send request: ".data ++ m
                   Retries := s.Retries + 1 }
          (by simp only [maxRetries] at *; omega) (by omega)
        constructor
        · simp only [List.length_cons]
          exact congrArg (· + 1) hrec.1
        · intro e he
          simp only [List.mem_cons] at he
          rcases he with he | he
          · simp [he, isBackoff]
          · exact hrec.2 e he
    | decodeErr m =>
      simp only [addLoopAux, h]
      split
      · simp [finishFailed]
      · rename_i hlt
        have hrec := ih (attempt + 1) (rc + 1)
          ("failed to decode response: ".data ++ m)
          { s with LastError := "failed to decode response: ".data ++ m
                   Retries := s.Retries + 1 }
          (by simp only [maxRetries] at *; omega) (by omega)
        constructor
        · simp only [List.length_cons]
          exact congrArg (· + 1) hrec.1
        · intro e he
          simp only [List.mem_cons] at he
          rcases he with he | he
          · simp [he, isBackoff]
          · exact hrec.2 e he
    | response code msg =>
      simp only [addLoopAux, h]
      split
      · simp
      · split
        · simp [finishFailed]
        · split
          · simp [finishFailed]
          · rename_i hmsg hterm hlt
            have hrec := ih (attempt + 1) (rc + 1)
              (if msg = [] then "dynalist API error: ".data ++ code
               else "dynalist API error: ".data ++ msg)
              { { s with LastError :=
                    if msg = [] then "dynalist API error: ".data ++ code
                    else "dynalist API error: ".data ++ msg } with
                  Retries := s.Retries + 1 }
              (by simp only [maxRetries] at *; omega) (by omega)
            constructor
            · simp only [List.length_cons]
              exact congrArg (· + 1) hrec.1
            · intro e he
              simp only [List.mem_cons] at he
              rcases he with he | he
              · simp [he, isBackoff]
              · exact hrec.2 e he

/-- The backoff computation is the capped product of the exponential delay
and the jitter factor. -/
lemma calculateBackoff_eq_min (n : Nat) (j : ℚ) :
    calculateBackoff n j = min ((minDelay : ℚ) * 2 ^ n * j) (maxDelay : ℚ) := by
  simp only [calculateBackoff]
  split
  · rename_i hgt
    exact (min_eq_right hgt.le).symm
  · rename_i hle
    exact (min_eq_left (not_lt.mp hle)).symm

/-- For a fixed non-negative jitter the backoff is monotone in the retry
number. -/
lemma calculateBackoff_mono (m n : Nat) (j : ℚ) (hj : 0 ≤ j) (hmn : m ≤ n) :
    calculateBackoff m j ≤ calculateBackoff n j := by
  rw [calculateBackoff_eq_min, calculateBackoff_eq_min]
  refine min_le_min ?_ le_rfl
  have hpow : (2 : ℚ) ^ m ≤ 2 ^ n := pow_le_pow_right₀ (by norm_num) hmn
  have hmd : (0 : ℚ) ≤ (minDelay : ℚ) := by positivity
  exact mul_le_mul_of_nonneg_right (mul_le_mul_of_nonneg_left hpow hmd) hj

/-- Claim C5: for every retry number and every jitter value in `[0.5, 1.5)`,
`calculateBackoff` equals the base delay times `2 ^ n` times the jitter
factor, capped at the maximum delay, hence never exceeds the maximum delay;
and for a fixed jitter it is monotonically non-decreasing in the retry
number. -/
theorem claim_C5 (n m : Nat) (j : ℚ) (h1 : 1 / 2 ≤ j) (h2 : j < 3 / 2) (hmn : m ≤ n) :
    calculateBackoff n j = min ((minDelay : ℚ) * 2 ^ n * j) (maxDelay : ℚ)
    ∧ calculateBackoff n j ≤ (maxDelay : ℚ)
    ∧ calculateBackoff m j ≤ calculateBackoff n j := by
  refine ⟨calculateBackoff_eq_min n j, ?_, ?_⟩
  · rw [calculateBackoff_eq_min]
    exact min_le_right _ _
  · exact calculateBackoff_mono m n j (by linarith) hmn

/-- Witness for C5 at `n = 3`, `m = 1`, `jitter = 1`. -/
theorem claim_C5_witness :
    calculateBackoff 3 1 = min ((minDelay : ℚ) * 2 ^ 3 * 1) (maxDelay : ℚ)
    ∧ calculateBackoff 3 1 ≤ (maxDelay : ℚ)
    ∧ calculateBackoff 1 1 ≤ calculateBackoff 3 1 :=
  claim_C5 3 1 1 (by norm_num) (by norm_num) (by norm_num)

/-- Claim C8: evaluation of `shortenFilename` at a filename carrying exactly
the timestamp shape named by the code's own comment
(`2024-03-25T19_29_21.446+01_00`).  The claim (and the comment in
keepnote.go) says timestamp-like substrings are stripped, yet the result
still begins with the timestamp: `strings.Split` treats the regular
expression texts of `timestampPatterns` as literal separators, which never
occur in real filenames, so nothing is ever stripped. -/
theorem claim_C8_eval :
    shortenFilename ("2024-03-25T19_29_21.446+01_00.json".data) = "2024-03-25T19_2...".data
    ∧ "2024-03-25T19".data <+: shortenFilename ("2024-03-25T19_29_21.446+01_00.json".data) := by
  decide

/-- Claim C9: `processLabels` renders exactly one hashtag per label, in
source order with no de-duplication, each consisting of `#` followed by the
label name with spaces replaced by underscores (hence containing no space),
joined by single spaces; the empty list yields the empty string. -/
theorem claim_C9 (L : List Label) :
    processLabels L = List.intercalate [' '] (L.map fun l => '#' :: replaceAllSpace l.Name)
    ∧ (L.map fun l => '#' :: replaceAllSpace l.Name).length = L.length
    ∧ (∀ l, l ∈ L →
        ('#' :: replaceAllSpace l.Name).head? = some '#' ∧ ' ' ∉ replaceAllSpace l.Name)
    ∧ processLabels [] = [] := by
  refine ⟨rfl, by simp, fun l _ => ⟨rfl, ?_⟩, rfl⟩
  simp only [replaceAllSpace, List.mem_map, not_exists, not_and]
  intro b _ hb
  by_cases h : b = ' ' <;> simp [h] at hb

/-- Witness for C9 on the concrete label list `["A B", "Work"]`. -/
theorem claim_C9_witness :
    processLabels [⟨"A B".data⟩, ⟨"Work".data⟩] = "#A_B #Work".data
    ∧ ' ' ∉ replaceAllSpace ("A B".data) := by
  have h := claim_C9 [⟨"A B".data⟩, ⟨"Work".data⟩]
  exact ⟨by decide, (h.2.2.1 ⟨"A B".data⟩ (by decide)).2⟩

/-- Claim C6: every non-archived note is delivered with a content field equal
to the `"gkeep: "` marker followed by the note's title (or the
filename-derived title when the title is empty), and a note field equal to
the body text, then the attachments block when attachment links exist, then
the hashtag string when non-empty; in particular the note with title `"T"`,
body `"B"` and labels `["Work", "A B"]` yields note field
`"B\n\n#Work #A_B"` and content field `"gkeep: T"`. -/
theorem claim_C6 (r2 : Option (Attachment → Option (List Char))) (note : KeepNote)
    (fp : List Char) (h : note.IsArchived = false) :
    processKeepFile r2 (some note) fp = some (processMessage r2 note fp)
    ∧ (processMessage r2 note fp).payload.content =
        "gkeep: ".data ++ (if note.Title = [] then shortenFilename fp else note.Title)
    ∧ (processMessage r2 note fp).payload.note =
        note.TextContent
          ++ (if (attachmentLinksOf r2 note.Attachments).length > 0 then
                "\n\nAttachments:\n".data
                  ++ List.intercalate ['\n'] (attachmentLinksOf r2 note.Attachments)
              else [])
          ++ (if processLabels note.Labels ≠ [] then "\n\n".data ++ processLabels note.Labels
              else [])
    ∧ (processMessage none ⟨"T".data, "B".data, [], [⟨"Work".data⟩, ⟨"A B".data⟩], false⟩
        ("f.json".data)).payload.note = "B\n\n#Work #A_B".data
    ∧ (processMessage none ⟨"T".data, "B".data, [], [⟨"Work".data⟩, ⟨"A B".data⟩], false⟩
        ("f.json".data)).payload.content = "gkeep: T".data := by
  refine ⟨by simp [processKeepFile, h], rfl, ?_, by decide, by decide⟩
  simp only [processMessage]
  split
  · split
    · simp [List.append_assoc]
    · simp
  · split
    · simp [List.append_assoc]
    · simp

/-- Witness for C6 at a concrete non-archived note. -/
theorem claim_C6_witness :
    processKeepFile none
        (some ⟨"T".data, "B".data, [], [⟨"Work".data⟩, ⟨"A B".data⟩], false⟩) ("f.json".data)
      = some (processMessage none
          ⟨"T".data, "B".data, [], [⟨"Work".data⟩, ⟨"A B".data⟩], false⟩ ("f.json".data)) :=
  (claim_C6 none ⟨"T".data, "B".data, [], [⟨"Work".data⟩, ⟨"A B".data⟩], false⟩
    ("f.json".data) (by decide)).1

/-- Counterexample to claim C7 as stated: for the note with title `"T"` and
label `"Work"` the normalized hashtag string `"#Work"` is non-empty, yet the
content field handed to the Delivery Client is `"gkeep: T"`, which is not
suffixed with the hashtag string. -/
theorem claim_C7_cex :
    processLabels [⟨"Work".data⟩] ≠ []
    ∧ ¬ (processLabels [⟨"Work".data⟩] <:+
          (processMessage none ⟨"T".data, "B".data, [], [⟨"Work".data⟩], false⟩
            ("f.json".data)).payload.content) := by
  decide

/-- Claim C7 as amended: when the normalized hashtag string is non-empty it
is appended as a suffix of the note field passed to the Delivery Client (the
body), while the content field (the title) is only prefixed with the
`"gkeep: "` marker. -/
theorem claim_C7_amended (r2 : Option (Attachment → Option (List Char)))
    (note : KeepNote) (fp : List Char) (h : processLabels note.Labels ≠ []) :
    processLabels note.Labels <:+ (processMessage r2 note fp).payload.note
    ∧ (processMessage r2 note fp).payload.content =
        "gkeep: ".data ++ (if note.Title = [] then shortenFilename fp else note.Title) := by
  refine ⟨?_, rfl⟩
  show processLabels note.Labels <:+ (processMessage r2 note fp).payload.note
  simp only [processMessage]
  rw [if_pos h]
  exact List.suffix_append _ _

/-- Witness for the amended C7 at a concrete note with one label. -/
theorem claim_C7_amended_witness :
    processLabels [⟨"Work".data⟩] <:+
      (processMessage none ⟨"T2".data, "B2".data, [], [⟨"Work".data⟩], false⟩
        ("g.json".data)).payload.note
    ∧ (processMessage none ⟨"T2".data, "B2".data, [], [⟨"Work".data⟩], false⟩
        ("g.json".data)).payload.content =
        "gkeep: ".data
          ++ (if ("T2".data : List Char) = [] then shortenFilename ("g.json".data)
              else "T2".data) :=
  claim_C7_amended none ⟨"T2".data, "B2".data, [], [⟨"Work".data⟩], false⟩
    ("g.json".data) (by decide)

/-- Claim C10: with no R2 client configured, no attachment resolution or
upload is attempted for any note (even one declaring attachments), the
delivered note field is exactly the body text followed by the hashtag block
(no attachments block), and a non-archived note is still delivered. -/
theorem claim_C10 (note : KeepNote) (fp : List Char) :
    (processMessage none note fp).attempts = 0
    ∧ (processMessage none note fp).payload.note =
        note.TextContent
          ++ (if processLabels note.Labels ≠ [] then "\n\n".data ++ processLabels note.Labels
              else [])
    ∧ (note.IsArchived = false →
        processKeepFile none (some note) fp = some (processMessage none note fp)) := by
  refine ⟨rfl, ?_, fun h => by simp [processKeepFile, h]⟩
  simp only [processMessage, attachmentLinksOf]
  split <;> simp [List.append_assoc]

/-- Witness for C10 at a concrete note that declares an attachment. -/
theorem claim_C10_witness :
    (processMessage none
        ⟨"T3".data, "B3".data, [⟨"a.png".data, "image/png".data⟩], [], false⟩
        ("h.json".data)).attempts = 0
    ∧ processKeepFile none
        (some ⟨"T3".data, "B3".data, [⟨"a.png".data, "image/png".data⟩], [], false⟩)
        ("h.json".data)
      = some (processMessage none
          ⟨"T3".data, "B3".data, [⟨"a.png".data, "image/png".data⟩], [], false⟩
          ("h.json".data)) := by
  have h := claim_C10
    ⟨"T3".data, "B3".data, [⟨"a.png".data, "image/png".data⟩], [], false⟩ ("h.json".data)
  exact ⟨h.1, h.2.2 (by decide)⟩

/-- Statistics with all counters zero and both strings empty. -/
def statsZero : RetryStats := ⟨0, 0, 0, 0, [], []⟩

/-- An endpoint that answers `"Ok"` to every attempt. -/
def envFirstOk : Nat → AttemptOutcome := fun _ => .response ("Ok".data) []

/-- An endpoint that answers `"TooManyRequests"` to the first three attempts
and `"Ok"` afterwards. -/
def envRate3 : Nat → AttemptOutcome :=
  fun i => if i < 3 then .response ("TooManyRequests".data) [] else .response ("Ok".data) []

/-- An endpoint whose first attempt fails in transport and whose second
attempt answers `"Ok"`. -/
def envSendErrThenOk : Nat → AttemptOutcome :=
  fun i => if i = 0 then .sendErr [] else .response ("Ok".data) []

/-- Claim C1: every execution of `AddToDynalist` performs at most
`maxRetries` retries, hence sends at most `maxRetries + 1 = 6` HTTP requests,
whatever the endpoint and transport do. -/
theorem claim_C1 (token content note : List Char) (pauseR : Nat)
    (env : Nat → AttemptOutcome) (s : RetryStats) :
    (AddToDynalist token content note pauseR env s).requests ≤ maxRetries + 1
    ∧ (AddToDynalist token content note pauseR env s).requests - 1 ≤ maxRetries := by
  have h := addLoopAux_requests_le env (maxRetries + 1) 0 0 []
    { s with TotalCalls := s.TotalCalls + 1 }
  simp only [AddToDynalist, addLoop, Nat.sub_zero]
  exact ⟨h, by omega⟩

/-- Claim C2: the retry loop conforms to the spec's outcome classification at
every reachable loop state.  A success-classified outcome returns success
after this single request; a terminal-classified outcome (a non-success,
non-rate-limit code once two retries have occurred) returns the error after
this single request with no further attempt; a retry-classified outcome
(transport or decode failure, the rate-limit code, or another error code
within the first two attempts) is followed by at least one further request
while retries remain, and returns the error when retries are exhausted. -/
theorem claim_C2 (env : Nat → AttemptOutcome) (attempt rc : Nat)
    (lastErr : List Char) (s : RetryStats) (hrc : rc ≤ maxRetries) :
    (classifySpec (env attempt) rc = Classification.success →
        (addLoop env attempt rc lastErr s).ok = true
      ∧ (addLoop env attempt rc lastErr s).requests = 1)
    ∧ (classifySpec (env attempt) rc = Classification.terminal →
        (addLoop env attempt rc lastErr s).ok = false
      ∧ (addLoop env attempt rc lastErr s).requests = 1)
    ∧ (classifySpec (env attempt) rc = Classification.retry → rc < maxRetries →
        2 ≤ (addLoop env attempt rc lastErr s).requests)
    ∧ (classifySpec (env attempt) rc = Classification.retry → rc = maxRetries →
        (addLoop env attempt rc lastErr s).ok = false
      ∧ (addLoop env attempt rc lastErr s).requests = 1) := by
  have hk : maxRetries + 1 - rc = (maxRetries - rc) + 1 := by omega
  cases h : env attempt with
  | sendErr m =>
    have hcl : classifySpec (AttemptOutcome.sendErr m) rc = Classification.retry := rfl
    refine ⟨?_, ?_, ?_, ?_⟩
    · intro hc
      rw [hcl] at hc
      cases hc
    · intro hc
      rw [hcl] at hc
      cases hc
    · intro _ hlt
      simp only [addLoop, hk, addLoopAux, h]
      rw [if_neg (show ¬ rc + 1 > maxRetries by omega)]
      have hpos : maxRetries - rc = (maxRetries - rc - 1) + 1 := by omega
      simp only
      rw [hpos]
      exact Nat.succ_le_succ (addLoopAux_requests_pos env _ _ _ _ _)
    · intro _ heq
      simp only [addLoop, hk, addLoopAux, h]
      rw [if_pos (show rc + 1 > maxRetries by omega)]
      exact ⟨rfl, rfl⟩
  | decodeErr m =>
    have hcl : classifySpec (AttemptOutcome.decodeErr m) rc = Classification.retry := rfl
    refine ⟨?_, ?_, ?_, ?_⟩
    · intro hc
      rw [hcl] at hc
      cases hc
    · intro hc
      rw [hcl] at hc
      cases hc
    · intro _ hlt
      simp only [addLoop, hk, addLoopAux, h]
      rw [if_neg (show ¬ rc + 1 > maxRetries by omega)]
      have hpos : maxRetries - rc = (maxRetries - rc - 1) + 1 := by omega
      simp only
      rw [hpos]
      exact Nat.succ_le_succ (addLoopAux_requests_pos env _ _ _ _ _)
    · intro _ heq
      simp only [addLoop, hk, addLoopAux, h]
      rw [if_pos (show rc + 1 > maxRetries by omega)]
      exact ⟨rfl, rfl⟩
  | response code msg =>
    by_cases hok : code = "Ok".data
    · have hcl : classifySpec (AttemptOutcome.response code msg) rc
          = Classification.success := by
        simp only [classifySpec]
        rw [if_pos hok]
      refine ⟨?_, ?_, ?_, ?_⟩
      · intro _
        simp [addLoop, hk, addLoopAux, h, hok]
      · intro hc
        rw [hcl] at hc
        cases hc
      · intro hc
        rw [hcl] at hc
        cases hc
      · intro hc
        rw [hcl] at hc
        cases hc
    · by_cases htmr : code = "TooManyRequests".data
      · have hcl : classifySpec (AttemptOutcome.response code msg) rc
            = Classification.retry := by
          simp only [classifySpec]
          rw [if_neg hok, if_pos htmr]
        have hterm : ¬ (code ≠ "TooManyRequests".data ∧ rc ≥ 2) := by
          simp [htmr]
        refine ⟨?_, ?_, ?_, ?_⟩
        · intro hc
          rw [hcl] at hc
          cases hc
        · intro hc
          rw [hcl] at hc
          cases hc
        · intro _ hlt
          simp only [addLoop, hk, addLoopAux, h]
          rw [if_neg hok, if_neg hterm, if_neg (show ¬ rc + 1 > maxRetries by omega)]
          have hpos : maxRetries - rc = (maxRetries - rc - 1) + 1 := by omega
          simp only
          rw [hpos]
          exact Nat.succ_le_succ (addLoopAux_requests_pos env _ _ _ _ _)
        · intro _ heq
          simp only [addLoop, hk, addLoopAux, h]
          rw [if_neg hok, if_neg hterm, if_pos (show rc + 1 > maxRetries by omega)]
          exact ⟨rfl, rfl⟩
      · by_cases h2 : rc < 2
        · have hcl : classifySpec (AttemptOutcome.response code msg) rc
              = Classification.retry := by
            simp only [classifySpec]
            rw [if_neg hok, if_neg htmr, if_pos h2]
          have hterm : ¬ (code ≠ "TooManyRequests".data ∧ rc ≥ 2) := by
            simp only [not_and]
            intro _
            omega
          refine ⟨?_, ?_, ?_, ?_⟩
          · intro hc
            rw [hcl] at hc
            cases hc
          · intro hc
            rw [hcl] at hc
            cases hc
          · intro _ hlt
            simp only [addLoop, hk, addLoopAux, h]
            rw [if_neg hok, if_neg hterm, if_neg (show ¬ rc + 1 > maxRetries by omega)]
            have hpos : maxRetries - rc = (maxRetries - rc - 1) + 1 := by omega
            simp only
            rw [hpos]
            exact Nat.succ_le_succ (addLoopAux_requests_pos env _ _ _ _ _)
          · intro _ heq
            simp only [addLoop, hk, addLoopAux, h]
            rw [if_neg hok, if_neg hterm, if_pos (show rc + 1 > maxRetries by omega)]
            exact ⟨rfl, rfl⟩
        · have hcl : classifySpec (AttemptOutcome.response code msg) rc
              = Classification.terminal := by
            simp only [classifySpec]
            rw [if_neg hok, if_neg htmr, if_neg h2]
          have hterm : code ≠ "TooManyRequests".data ∧ rc ≥ 2 := ⟨htmr, by omega⟩
          refine ⟨?_, ?_, ?_, ?_⟩
          · intro hc
            rw [hcl] at hc
            cases hc
          · intro _
            simp only [addLoop, hk, addLoopAux, h]
            rw [if_neg hok, if_pos hterm]
            exact ⟨rfl, rfl⟩
          · intro hc _
            rw [hcl] at hc
            cases hc
          · intro hc _
            rw [hcl] at hc
            cases hc

/-- Witness for C2: a non-rate-limit error code observed after two retries is
terminal. -/
theorem claim_C2_witness :
    classifySpec (AttemptOutcome.response ("SomeError".data) []) 2 = Classification.terminal
    ∧ (addLoop (fun _ => .response ("SomeError".data) []) 0 2 [] statsZero).ok = false
    ∧ (addLoop (fun _ => .response ("SomeError".data) []) 0 2 [] statsZero).requests = 1 := by
  have h := claim_C2 (fun _ => .response ("SomeError".data) []) 0 2 [] statsZero (by decide)
  have h2 := h.2.1 (by decide)
  exact ⟨by decide, h2.1, h2.2⟩

/-- Counterexample to claim C3 as stated: with a transport failure on the
first attempt and success on the second, two HTTP attempts are performed but
only one pacing sleep is drawn from the 1-3 second window; the sleep before
the retry attempt is a backoff sleep of `calculateBackoff 1`, not a pacing
draw. -/
theorem claim_C3_cex :
    (AddToDynalist [] [] [] 0 envSendErrThenOk statsZero).requests = 2
    ∧ (AddToDynalist [] [] [] 0 envSendErrThenOk statsZero).sleeps
        = [SleepEvent.pacing minPause, SleepEvent.backoff 1]
    ∧ ((AddToDynalist [] [] [] 0 envSendErrThenOk statsZero).sleeps.filter isPacing).length
        = 1
    ∧ ¬ (((AddToDynalist [] [] [] 0 envSendErrThenOk statsZero).sleeps.filter
          isPacing).length
        = (AddToDynalist [] [] [] 0 envSendErrThenOk statsZero).requests) := by
  decide

/-- Claim C3 as amended: each `AddToDynalist` call performs exactly one
pacing sleep, before the first attempt, of duration `minPause + pauseR`
(which lies in the 1-3 second window whenever the drawn value is below
`maxPause - minPause`); before each retry attempt a backoff sleep is
performed instead, so there is exactly one backoff sleep per request beyond
the first. -/
theorem claim_C3_amended (token content note : List Char) (pauseR : Nat)
    (env : Nat → AttemptOutcome) (s : RetryStats)
    (h : pauseR < maxPause - minPause) :
    (AddToDynalist token content note pauseR env s).sleeps.head?
        = some (SleepEvent.pacing (minPause + pauseR))
    ∧ minPause ≤ minPause + pauseR
    ∧ minPause + pauseR < maxPause
    ∧ ((AddToDynalist token content note pauseR env s).sleeps.filter isPacing).length = 1
    ∧ ((AddToDynalist token content note pauseR env s).sleeps.filter isBackoff).length + 1
        = (AddToDynalist token content note pauseR env s).requests := by
  have hs := addLoopAux_sleeps env (maxRetries + 1) 0 0 []
    { s with TotalCalls := s.TotalCalls + 1 } (by omega) (by omega)
  simp only [AddToDynalist, addLoop, Nat.sub_zero] at hs ⊢
  have hpac : (addLoopAux env 0 0 []
      { s with TotalCalls := s.TotalCalls + 1 } (maxRetries + 1)).sleeps.filter isPacing
      = [] := by
    rw [List.filter_eq_nil_iff]
    intro e he
    have := hs.2 e he
    cases e with
    | pacing d => simp [isBackoff] at this
    | backoff r => simp [isPacing]
  have hback : (addLoopAux env 0 0 []
      { s with TotalCalls := s.TotalCalls + 1 } (maxRetries + 1)).sleeps.filter isBackoff
      = (addLoopAux env 0 0 []
          { s with TotalCalls := s.TotalCalls + 1 } (maxRetries + 1)).sleeps := by
    rw [List.filter_eq_self]
    intro e he
    exact hs.2 e he
  refine ⟨rfl, Nat.le_add_right _ _, by simp only [minPause, maxPause] at h ⊢; omega, ?_, ?_⟩
  · simp only [List.filter_cons, isPacing, List.length_cons, hpac]
    simp
  · simp only [List.filter_cons, isBackoff, hback]
    exact hs.1

/-- Witness for the amended C3 with a zero random draw against an endpoint
answering success immediately. -/
theorem claim_C3_amended_witness :
    (0 : Nat) < maxPause - minPause
    ∧ (AddToDynalist [] [] [] 0 envFirstOk statsZero).sleeps.head?
        = some (SleepEvent.pacing (minPause + 0))
    ∧ ((AddToDynalist [] [] [] 0 envFirstOk statsZero).sleeps.filter isPacing).length = 1
    ∧ ((AddToDynalist [] [] [] 0 envFirstOk statsZero).sleeps.filter isBackoff).length + 1
        = (AddToDynalist [] [] [] 0 envFirstOk statsZero).requests := by
  have h := claim_C3_amended [] [] [] 0 envFirstOk statsZero (by decide)
  exact ⟨by decide, h.1, h.2.2.2.1, h.2.2.2.2⟩

/-- Claim C4: the statistics are updated on every completion branch — a
successful return increments `SuccessfulCalls` and sets `LastStatus`, a
failing return increments `FailedCalls` and sets `LastError` and
`LastStatus`, `TotalCalls` is incremented once per operation, and on a
successful run each retried attempt incremented `Retries` exactly once
(`Retries` grew by the number of requests beyond the first).  Concretely, a
success on the first attempt yields one request, one successful call and zero
retries, and three rate-limit responses followed by a success yield four
requests, three retries and a success. -/
theorem claim_C4 (token content note : List Char) (pauseR : Nat)
    (env : Nat → AttemptOutcome) (s : RetryStats) :
    ((AddToDynalist token content note pauseR env s).ok = true →
        (AddToDynalist token content note pauseR env s).stats.SuccessfulCalls
            = s.SuccessfulCalls + 1
      ∧ (AddToDynalist token content note pauseR env s).stats.LastStatus = "Success".data
      ∧ (AddToDynalist token content note pauseR env s).stats.FailedCalls = s.FailedCalls
      ∧ (AddToDynalist token content note pauseR env s).stats.TotalCalls = s.TotalCalls + 1
      ∧ (AddToDynalist token content note pauseR env s).stats.Retries + 1
          = s.Retries + (AddToDynalist token content note pauseR env s).requests)
    ∧ ((AddToDynalist token content note pauseR env s).ok = false →
        (AddToDynalist token content note pauseR env s).stats.FailedCalls = s.FailedCalls + 1
      ∧ (AddToDynalist token content note pauseR env s).stats.LastStatus = "Failed".data
      ∧ (AddToDynalist token content note pauseR env s).stats.LastError
          = (AddToDynalist token content note pauseR env s).err
      ∧ (AddToDynalist token content note pauseR env s).stats.SuccessfulCalls
          = s.SuccessfulCalls
      ∧ (AddToDynalist token content note pauseR env s).stats.TotalCalls = s.TotalCalls + 1)
    ∧ (AddToDynalist [] [] [] 0 envFirstOk statsZero).requests = 1
    ∧ (AddToDynalist [] [] [] 0 envFirstOk statsZero).ok = true
    ∧ (AddToDynalist [] [] [] 0 envFirstOk statsZero).stats.SuccessfulCalls = 1
    ∧ (AddToDynalist [] [] [] 0 envFirstOk statsZero).stats.Retries = 0
    ∧ (AddToDynalist [] [] [] 0 envRate3 statsZero).requests = 4
    ∧ (AddToDynalist [] [] [] 0 envRate3 statsZero).stats.Retries = 3
    ∧ (AddToDynalist [] [] [] 0 envRate3 statsZero).ok = true
    ∧ (AddToDynalist [] [] [] 0 envRate3 statsZero).stats.SuccessfulCalls = 1 := by
  have hst := addLoopAux_stats env (maxRetries + 1) 0 0 []
    { s with TotalCalls := s.TotalCalls + 1 } (Or.inr (by omega))
  refine ⟨?_, ?_, by decide, by decide, by decide, by decide, by decide, by decide,
    by decide, by decide⟩
  · intro hok
    simp only [AddToDynalist, addLoop, Nat.sub_zero] at hok ⊢
    have hc := hst.1 hok
    simp only at hc ⊢
    exact ⟨hc.1, hc.2.2.1, hc.2.1, hc.2.2.2.1, hc.2.2.2.2⟩
  · intro hok
    simp only [AddToDynalist, addLoop, Nat.sub_zero] at hok ⊢
    have hc := hst.2 hok
    simp only at hc ⊢
    exact ⟨hc.1, hc.2.2.1, hc.2.2.2.2, hc.2.1, hc.2.2.2.1⟩

/-- Witness for C4: the success branch instantiated at an endpoint answering
success on the first attempt. -/
theorem claim_C4_witness :
    (AddToDynalist [] [] [] 0 envFirstOk statsZero).stats.SuccessfulCalls
        = statsZero.SuccessfulCalls + 1
    ∧ (AddToDynalist [] [] [] 0 envFirstOk statsZero).stats.LastStatus = "Success".data
    ∧ (AddToDynalist [] [] [] 0 envFirstOk statsZero).stats.FailedCalls
        = statsZero.FailedCalls
    ∧ (AddToDynalist [] [] [] 0 envFirstOk statsZero).stats.TotalCalls
        = statsZero.TotalCalls + 1
    ∧ (AddToDynalist [] [] [] 0 envFirstOk statsZero).stats.Retries + 1
        = statsZero.Retries + (AddToDynalist [] [] [] 0 envFirstOk statsZero).requests :=
  (claim_C4 [] [] [] 0 envFirstOk statsZero).1 (by decide)

end G2D
